import Mathlib

/-!
Verification of the `scc` compiler pipeline (lexer, parser, assembly
generator) against its specification.  The Rust source is shallowly
embedded: each Rust function becomes a Lean function of the same name,
tokens and AST nodes become inductive types, `Result<T, String>` becomes
`Except String T`, and the signed 32-bit integers produced by the parser
are modelled as `Int` (the parser itself enforces the i32 range, so no
wrap-around arithmetic ever occurs in the pipeline).
-/

set_option maxHeartbeats 1000000

namespace Scc

/-- The token vocabulary, one constructor per variant of the Rust `Token`
enum in `ast.rs`. -/
inductive Token where
  | OpenBrace
  | CloseBrace
  | OpenParenthesis
  | CloseParenthesis
  | Semicolon
  | IntKeyword
  | ReturnKeyword
  | VoidKeyword
  | Identifier (name : String)
  | IntegerLiteral (value : String)
  | Negation
  | BitwiseComplement
  | LogicalNegation
  | Decrement
  deriving DecidableEq, Repr

/-- The text Rust's derived `Debug` (`{:?}`) prints for a token; the
parser's error messages interpolate tokens this way. -/
def tokenDebug : Token → String
  | Token.OpenBrace => "OpenBrace"
  | Token.CloseBrace => "CloseBrace"
  | Token.OpenParenthesis => "OpenParenthesis"
  | Token.CloseParenthesis => "CloseParenthesis"
  | Token.Semicolon => "Semicolon"
  | Token.IntKeyword => "IntKeyword"
  | Token.ReturnKeyword => "ReturnKeyword"
  | Token.VoidKeyword => "VoidKeyword"
  | Token.Identifier s => "Identifier(\"" ++ s ++ "\")"
  | Token.IntegerLiteral s => "IntegerLiteral(\"" ++ s ++ "\")"
  | Token.Negation => "Negation"
  | Token.BitwiseComplement => "BitwiseComplement"
  | Token.LogicalNegation => "LogicalNegation"
  | Token.Decrement => "Decrement"

/-- Source AST: the only expression variant, `Exp::Const(i32)`. -/
inductive Exp where
  | Const (v : Int)
  deriving DecidableEq, Repr

/-- Source AST: the only statement variant, `Statement::Return(Exp)`. -/
inductive Statement where
  | Return (e : Exp)
  deriving DecidableEq, Repr

/-- Source AST: `FunDecl { name, body }`. -/
structure FunDecl where
  name : String
  body : Statement
  deriving DecidableEq, Repr

/-- Source AST: `Program { func }`. -/
structure Program where
  func : FunDecl
  deriving DecidableEq, Repr

/-- Rust `char::is_digit(10)`: exactly the ASCII digits. -/
def rustIsDigit10 (c : Char) : Bool := c.isDigit

/-- Rust `char::is_alphanumeric` (Unicode Alphabetic or Number), modelled
exactly on code points up to U+00FF: the ASCII alphanumerics together
with the Latin-1 letters and numeric characters
ª µ º ² ³ ¹ ¼ ½ ¾ À–Ö Ø–ö ø–ÿ.  Code points above U+00FF are outside the
model; every theorem below that runs the lexer on an arbitrary input
restricts that input to ASCII. -/
def rustIsAlphanumeric (c : Char) : Bool :=
  c.isAlphanum ||
  c.toNat == 0xAA || c.toNat == 0xB5 || c.toNat == 0xBA ||
  c.toNat == 0xB2 || c.toNat == 0xB3 || c.toNat == 0xB9 ||
  (0xBC ≤ c.toNat && c.toNat ≤ 0xBE) ||
  (0xC0 ≤ c.toNat && c.toNat ≤ 0xD6) ||
  (0xD8 ≤ c.toNat && c.toNat ≤ 0xF6) ||
  (0xF8 ≤ c.toNat && c.toNat ≤ 0xFF)

/-- The character class accepted inside identifier runs:
`ch.is_alphanumeric() || ch == '_'` in `lex_identifier_or_keyword`. -/
def isIdentChar (c : Char) : Bool := rustIsAlphanumeric c || c = '_'

/-- The `//` comment loop: skip characters until the next newline, which
is left unconsumed (the main loop's whitespace arm then eats it). -/
def skipLineComment : List Char → List Char
  | [] => []
  | c :: cs => if c = '\n' then c :: cs else skipLineComment cs

/-- The `/*` comment loop: consume characters until a `*` immediately
followed by `/` has been consumed; an unterminated comment consumes the
whole rest of the input. -/
def skipBlockComment : List Char → List Char
  | [] => []
  | [_] => []
  | c :: d :: cs => if c = '*' ∧ d = '/' then cs else skipBlockComment (d :: cs)

/-- Whether the block-comment scan ever finds a terminating `*/`
(mirrors the scanning order of `skipBlockComment`). -/
def blockCloses : List Char → Bool
  | [] => false
  | [_] => false
  | c :: d :: cs => if c = '*' ∧ d = '/' then true else blockCloses (d :: cs)

/-- `lex_identifier_or_keyword`: collect the maximal run of identifier
characters into an `Identifier` token and return the remaining input. -/
def lex_identifier_or_keyword (cs : List Char) : Token × List Char :=
  (Token.Identifier (String.mk (cs.takeWhile isIdentChar)), cs.dropWhile isIdentChar)

/-- `lex_integer_literal`: collect the maximal run of decimal digits into
an `IntegerLiteral` token and return the remaining input. -/
def lex_integer_literal (cs : List Char) : Token × List Char :=
  (Token.IntegerLiteral (String.mk (cs.takeWhile rustIsDigit10)), cs.dropWhile rustIsDigit10)

/-- Rust `str::starts_with`, on character lists: does the second list
start with the first? -/
def startsWithChars : List Char → List Char → Bool
  | [], _ => true
  | _ :: _, [] => false
  | p :: ps, c :: cs => p == c && startsWithChars ps cs

/-- The `'/'` arm of the `lex` main loop, after the `/` itself has been
consumed: peek at the next character; a second `/` starts a line comment,
a `*` starts a block comment, end of input is accepted silently, and
anything else is the `panic!` about an unexpected character after `/`. -/
def lexSlash : List Char → Except String (Option Token × List Char)
  | [] => Except.ok (none, [])
  | d :: ds =>
    if d = '/' then Except.ok (none, skipLineComment ds)
    else if d = '*' then Except.ok (none, skipBlockComment ds)
    else Except.error ("Unexpected character after '/': " ++ String.mk [d])

/-- One iteration of the `lex` main loop: the cursor sits on `c` with
`cs` after it.  Returns the token pushed by this iteration (if any) and
the remaining input, or the message of the `panic!` the iteration hits.
The branches appear in the order of the Rust `match` arms. -/
def lexStep (c : Char) (cs : List Char) : Except String (Option Token × List Char) :=
  if c = '{' then Except.ok (some Token.OpenBrace, cs)
  else if c = '}' then Except.ok (some Token.CloseBrace, cs)
  else if c = '(' then Except.ok (some Token.OpenParenthesis, cs)
  else if c = ')' then Except.ok (some Token.CloseParenthesis, cs)
  else if c = ';' then Except.ok (some Token.Semicolon, cs)
  else if c = '-' then Except.ok (some Token.Negation, cs)
  else if c = '~' then Except.ok (some Token.BitwiseComplement, cs)
  else if c = '!' then Except.ok (some Token.LogicalNegation, cs)
  else if c = '/' then lexSlash cs
  else if c = 'i' then
    if startsWithChars ['i', 'n', 't'] (c :: cs) then
      Except.ok (some Token.IntKeyword, cs.drop 2)
    else
      Except.ok (some (lex_identifier_or_keyword (c :: cs)).1, (lex_identifier_or_keyword (c :: cs)).2)
  else if c = 'r' then
    if startsWithChars ['r', 'e', 't', 'u', 'r', 'n'] (c :: cs) then
      Except.ok (some Token.ReturnKeyword, cs.drop 5)
    else
      Except.ok (some (lex_identifier_or_keyword (c :: cs)).1, (lex_identifier_or_keyword (c :: cs)).2)
  else if rustIsDigit10 c then
    Except.ok (some (lex_integer_literal (c :: cs)).1, (lex_integer_literal (c :: cs)).2)
  else if rustIsAlphanumeric c || c = '_' then
    Except.ok (some (lex_identifier_or_keyword (c :: cs)).1, (lex_identifier_or_keyword (c :: cs)).2)
  else if c = ' ' || c = '\n' || c = '\r' then Except.ok (none, cs)
  else Except.error ("Unexpected character: " ++ String.mk [c])

/-- The `lex` main loop, fuelled: every iteration consumes at least one
character, so `length + 1` units of fuel always suffice (see
`lexLoop_congr`). -/
def lexLoop : Nat → List Char → Except String (List Token)
  | 0, _ => Except.error "fuel exhausted"
  | _ + 1, [] => Except.ok []
  | fuel + 1, c :: cs =>
    match lexStep c cs with
    | Except.error e => Except.error e
    | Except.ok (none, rest) => lexLoop fuel rest
    | Except.ok (some t, rest) => Except.map (fun ts => t :: ts) (lexLoop fuel rest)

/-- Run the lexer main loop on a character list with sufficient fuel. -/
def lexRun (cs : List Char) : Except String (List Token) :=
  lexLoop (cs.length + 1) cs

/-- `lex`, applied to the decoded text content of the input file.
An `Except.error` models the Rust `panic!` branches. -/
def lex (s : String) : Except String (List Token) := lexRun s.data

/-- Rust `str::parse::<i32>` as used by `expect_integer_literal`: an
optional sign followed by at least one ASCII digit, whose decimal value
must fit in a signed 32-bit integer; `none` models `Err(ParseIntError)`. -/
def parseI32 (s : String) : Option Int :=
  let digitsVal : List Char → Option Nat := fun cs =>
    if cs = [] then none
    else if cs.all Char.isDigit then
      some (cs.foldl (fun n c => n * 10 + (c.toNat - 48)) 0)
    else none
  match s.data with
  | '+' :: rest =>
    (digitsVal rest).bind fun n => if n ≤ 2147483647 then some (Int.ofNat n) else none
  | '-' :: rest =>
    (digitsVal rest).bind fun n => if n ≤ 2147483648 then some (-(Int.ofNat n)) else none
  | cs =>
    (digitsVal cs).bind fun n => if n ≤ 2147483647 then some (Int.ofNat n) else none

/-- The decimal value of a digit run (the value `parseI32` computes when
it succeeds on an unsigned literal). -/
def digitsToNat (cs : List Char) : Nat :=
  cs.foldl (fun n c => n * 10 + (c.toNat - 48)) 0

/-- `expect_token`: consume the next token if it equals `expected`,
otherwise report it (or end of input). -/
def expect_token (toks : List Token) (expected : Token) : Except String (List Token) :=
  match toks with
  | t :: rest =>
    if t = expected then Except.ok rest
    else Except.error ("Expected " ++ tokenDebug expected ++ ", found " ++ tokenDebug t)
  | [] => Except.error ("Expected " ++ tokenDebug expected ++ ", but found end of input")

/-- `expect_identifier`: consume the next token, which must be an
identifier, and return its text. -/
def expect_identifier (toks : List Token) : Except String (String × List Token) :=
  match toks with
  | Token.Identifier name :: rest => Except.ok (name, rest)
  | t :: _ => Except.error ("Expected identifier, found " ++ tokenDebug t)
  | [] => Except.error "Expected identifier, but found end of input"

/-- `expect_integer_literal`: consume the next token, which must be an
integer literal, and parse its digit text as an i32. -/
def expect_integer_literal (toks : List Token) : Except String (Int × List Token) :=
  match toks with
  | Token.IntegerLiteral value :: rest =>
    match parseI32 value with
    | some v => Except.ok (v, rest)
    | none => Except.error "Invalid integer literal"
  | t :: _ => Except.error ("Expected integer literal, found " ++ tokenDebug t)
  | [] => Except.error "Expected integer literal, but found end of input"

/-- `parse`: the fixed grammar
`int <identifier> ( [void] ) \x7b return <integer-literal> ; \x7d`
with no tokens allowed afterwards.  Note two quirks kept from the
source: the parameter-list peek tests for the `VoidKeyword` token (which
the lexer never emits), and the two error strings reproduce the source's
spelling exactly. -/
def parse (tokens : List Token) : Except String Program := do
  let r1 ← expect_token tokens Token.IntKeyword
  let (identifier, r2) ← expect_identifier r1
  let r3 ← expect_token r2 Token.OpenParenthesis
  let r4 ← match r3 with
    | Token.VoidKeyword :: rest => pure rest
    | Token.CloseParenthesis :: _ => pure r3
    | _ => Except.error "Expected 'void' or ')' after '("
  let r5 ← expect_token r4 Token.CloseParenthesis
  let r6 ← expect_token r5 Token.OpenBrace
  let r7 ← expect_token r6 Token.ReturnKeyword
  let (integer, r8) ← expect_integer_literal r7
  let constant := Exp.Const integer
  let r9 ← expect_token r8 Token.Semicolon
  let r10 ← expect_token r9 Token.CloseBrace
  if r10.isEmpty then
    Except.ok { func := { name := identifier, body := Statement.Return constant } }
  else
    Except.error "Unexpected tokens at after function delcaration"

/-- The whole front half of the pipeline as `main` composes it:
`parse(lex(contents))`. -/
def lexAndParse (s : String) : Except String Program :=
  (lex s).bind parse

/-- Assembly AST: `AsmOperand`. -/
inductive AsmOperand where
  | Imm (v : Int)
  | Register
  deriving DecidableEq, Repr

/-- Assembly AST: `AsmInstruction`. -/
inductive AsmInstruction where
  | Mov (src dst : AsmOperand)
  | Ret
  deriving DecidableEq, Repr

/-- Assembly AST: `AsmFunction { name, instructions }`. -/
structure AsmFunction where
  name : String
  instructions : List AsmInstruction
  deriving DecidableEq, Repr

/-- Assembly AST: `AsmProgram { function }`. -/
structure AsmProgram where
  function : AsmFunction
  deriving DecidableEq, Repr

/-- `generate_operand`: `Exp::Const(value)` becomes `Imm(value)`.  The
Rust `_ => Err("Unsupported expression type.")` arm has no counterpart
here because `Exp` has no other constructor. -/
def generate_operand : Exp → Except String AsmOperand
  | Exp.Const value => Except.ok (AsmOperand.Imm value)

/-- `generate_assembly`: lower a `Return(exp)` body to
`[Mov(operand, Register), Ret]`.  The Rust `else` branch returning
`Err("Invalid function body, ...")` has no counterpart here because
`Statement` has no constructor besides `Return`. -/
def generate_assembly (ast : Program) : Except String AsmProgram :=
  match ast.func.body with
  | Statement.Return exp =>
    Except.map
      (fun operand =>
        { function :=
            { name := ast.func.name,
              instructions := [AsmInstruction.Mov operand AsmOperand.Register, AsmInstruction.Ret] } })
      (generate_operand exp)

/-- `operand_to_str`: `$<decimal>` for an immediate, `%eax` for the
accumulator register. -/
def operand_to_str : AsmOperand → String
  | AsmOperand.Imm value => "$" ++ toString value
  | AsmOperand.Register => "%eax"

/-- `assembly_to_string`: header (` .globl name` line and `name:` label
line), one indented line per instruction, then the GNU-stack note
directive with no trailing newline. -/
def assembly_to_string (assembly : AsmProgram) : String :=
  let asm := " .globl " ++ assembly.function.name ++ "\n" ++ assembly.function.name ++ ":\n"
  let asm := assembly.function.instructions.foldl
    (fun acc instruction =>
      match instruction with
      | AsmInstruction.Mov src dst =>
        acc ++ ("    movl " ++ operand_to_str src ++ ", " ++ operand_to_str dst ++ "\n")
      | AsmInstruction.Ret => acc ++ "    ret\n")
    asm
  asm ++ "    .section .note.GNU-stack,\"\",@progbits"

/-- First character of the identifier pattern `[A-Za-z_][A-Za-z0-9_]*`
from the specification: an ASCII letter or underscore. -/
def isAsciiIdentStart (c : Char) : Bool := c.isAlpha || c = '_'

/-- Continuation characters of the identifier pattern: ASCII letters,
ASCII digits, or underscore. -/
def isAsciiIdentChar (c : Char) : Bool := c.isAlphanum || c = '_'

/-- The specification predicate for identifier spellings: non-empty and
matching `[A-Za-z_][A-Za-z0-9_]*`. -/
def matchesIdentRegex (s : String) : Bool :=
  match s.data with
  | [] => false
  | c :: cs => isAsciiIdentStart c && cs.all isAsciiIdentChar

/-! ### Infrastructure lemmas for the fuelled lexer loop -/

theorem skipLineComment_sublist : ∀ cs : List Char, (skipLineComment cs).Sublist cs
  | [] => List.Sublist.refl []
  | c :: cs => by
    rw [skipLineComment]
    split
    · exact List.Sublist.refl _
    · exact List.Sublist.cons c (skipLineComment_sublist cs)

theorem skipBlockComment_sublist : ∀ cs : List Char, (skipBlockComment cs).Sublist cs
  | [] => List.Sublist.refl []
  | [_] => List.nil_sublist _
  | c :: d :: cs => by
    rw [skipBlockComment]
    split
    · exact List.Sublist.cons c (List.Sublist.cons d (List.Sublist.refl cs))
    · exact List.Sublist.cons c (skipBlockComment_sublist (d :: cs))

theorem skipBlockComment_of_not_closes :
    ∀ cs : List Char, blockCloses cs = false → skipBlockComment cs = []
  | [], _ => rfl
  | [_], _ => rfl
  | c :: d :: cs, h => by
    rw [blockCloses] at h
    rw [skipBlockComment]
    split
    · rename_i hc
      rw [if_pos hc] at h
      cases h
    · rename_i hc
      rw [if_neg hc] at h
      exact skipBlockComment_of_not_closes (d :: cs) h

/-- Destructing a successful `lexStep` result: the remaining input. -/
theorem ok_pair_eq {X o : Option Token} {Y rest : List Char}
    (h : (Except.ok (X, Y) : Except String (Option Token × List Char)) = Except.ok (o, rest)) :
    rest = Y := by
  injection h with h
  injection h with h1 h2
  exact h2.symm

/-- Destructing a successful `lexStep` result: the token produced. -/
theorem ok_pair_fst {X o : Option Token} {Y rest : List Char}
    (h : (Except.ok (X, Y) : Except String (Option Token × List Char)) = Except.ok (o, rest)) :
    o = X := by
  injection h with h
  injection h with h1 h2
  exact h1.symm

theorem dropWhile_cons_pos {p : Char → Bool} {c : Char} (hc : p c = true) (cs : List Char) :
    List.dropWhile p (c :: cs) = List.dropWhile p cs := by
  simp [List.dropWhile, hc]

theorem takeWhile_cons_pos {p : Char → Bool} {c : Char} (hc : p c = true) (cs : List Char) :
    List.takeWhile p (c :: cs) = c :: List.takeWhile p cs := by
  simp [List.takeWhile, hc]

theorem lexSlash_sublist {cs rest : List Char} {o : Option Token}
    (h : lexSlash cs = Except.ok (o, rest)) : rest.Sublist cs := by
  cases cs with
  | nil =>
    rw [lexSlash] at h
    rw [ok_pair_eq h]
  | cons d ds =>
    rw [lexSlash] at h
    by_cases hd : d = '/'
    · rw [if_pos hd] at h
      rw [ok_pair_eq h]
      exact List.Sublist.cons d (skipLineComment_sublist ds)
    rw [if_neg hd] at h
    by_cases hd2 : d = '*'
    · rw [if_pos hd2] at h
      rw [ok_pair_eq h]
      exact List.Sublist.cons d (skipBlockComment_sublist ds)
    rw [if_neg hd2] at h
    exact Except.noConfusion h

theorem lexStep_sublist {c : Char} {cs rest : List Char} {o : Option Token}
    (h : lexStep c cs = Except.ok (o, rest)) : rest.Sublist cs := by
  unfold lexStep at h
  by_cases h1 : c = '\x7b'
  · rw [if_pos h1] at h; rw [ok_pair_eq h]
  rw [if_neg h1] at h
  by_cases h2 : c = '\x7d'
  · rw [if_pos h2] at h; rw [ok_pair_eq h]
  rw [if_neg h2] at h
  by_cases h3 : c = '('
  · rw [if_pos h3] at h; rw [ok_pair_eq h]
  rw [if_neg h3] at h
  by_cases h4 : c = ')'
  · rw [if_pos h4] at h; rw [ok_pair_eq h]
  rw [if_neg h4] at h
  by_cases h5 : c = ';'
  · rw [if_pos h5] at h; rw [ok_pair_eq h]
  rw [if_neg h5] at h
  by_cases h6 : c = '-'
  · rw [if_pos h6] at h; rw [ok_pair_eq h]
  rw [if_neg h6] at h
  by_cases h7 : c = '~'
  · rw [if_pos h7] at h; rw [ok_pair_eq h]
  rw [if_neg h7] at h
  by_cases h8 : c = '!'
  · rw [if_pos h8] at h; rw [ok_pair_eq h]
  rw [if_neg h8] at h
  by_cases h9 : c = '/'
  · rw [if_pos h9] at h
    exact lexSlash_sublist h
  rw [if_neg h9] at h
  by_cases h10 : c = 'i'
  · rw [if_pos h10] at h
    by_cases hp : startsWithChars ['i', 'n', 't'] (c :: cs) = true
    · rw [if_pos hp] at h
      rw [ok_pair_eq h]
      exact List.drop_sublist 2 cs
    · rw [if_neg hp] at h
      rw [ok_pair_eq h]
      show (List.dropWhile isIdentChar (c :: cs)).Sublist cs
      subst h10
      rw [dropWhile_cons_pos (by decide) cs]
      exact List.dropWhile_sublist isIdentChar
  rw [if_neg h10] at h
  by_cases h11 : c = 'r'
  · rw [if_pos h11] at h
    by_cases hp : startsWithChars ['r', 'e', 't', 'u', 'r', 'n'] (c :: cs) = true
    · rw [if_pos hp] at h
      rw [ok_pair_eq h]
      exact List.drop_sublist 5 cs
    · rw [if_neg hp] at h
      rw [ok_pair_eq h]
      show (List.dropWhile isIdentChar (c :: cs)).Sublist cs
      subst h11
      rw [dropWhile_cons_pos (by decide) cs]
      exact List.dropWhile_sublist isIdentChar
  rw [if_neg h11] at h
  by_cases h12 : rustIsDigit10 c = true
  · rw [if_pos h12] at h
    rw [ok_pair_eq h]
    show (List.dropWhile rustIsDigit10 (c :: cs)).Sublist cs
    rw [dropWhile_cons_pos h12 cs]
    exact List.dropWhile_sublist rustIsDigit10
  rw [if_neg h12] at h
  by_cases h13 : (rustIsAlphanumeric c || c = '_') = true
  · rw [if_pos h13] at h
    rw [ok_pair_eq h]
    show (List.dropWhile isIdentChar (c :: cs)).Sublist cs
    rw [dropWhile_cons_pos h13 cs]
    exact List.dropWhile_sublist isIdentChar
  rw [if_neg h13] at h
  by_cases h14 : (c = ' ' || c = '\n' || c = '\r') = true
  · rw [if_pos h14] at h
    rw [ok_pair_eq h]
  rw [if_neg h14] at h
  exact Except.noConfusion h

/-- Definitional unfolding of the fuelled loop at a cons cell. -/
theorem lexLoop_succ_cons (fuel : Nat) (c : Char) (cs : List Char) :
    lexLoop (fuel + 1) (c :: cs) =
      match lexStep c cs with
      | Except.error e => Except.error e
      | Except.ok (none, rest) => lexLoop fuel rest
      | Except.ok (some t, rest) => Except.map (fun ts => t :: ts) (lexLoop fuel rest) := rfl

/-- The fuelled loop is fuel-irrelevant once the fuel exceeds the input
length: this is what makes `lexRun` a faithful rendering of the Rust
`while let` loop, which needs no fuel. -/
theorem lexLoop_congr : ∀ (f1 f2 : Nat) (cs : List Char),
    cs.length < f1 → cs.length < f2 → lexLoop f1 cs = lexLoop f2 cs
  | 0, _, cs, h1, _ => absurd h1 (by omega)
  | _ + 1, 0, cs, _, h2 => absurd h2 (by omega)
  | _ + 1, _ + 1, [], _, _ => rfl
  | f1 + 1, f2 + 1, c :: cs, h1, h2 => by
    rw [lexLoop_succ_cons, lexLoop_succ_cons]
    cases hstep : lexStep c cs with
    | error e => rfl
    | ok pr =>
      obtain ⟨o, rest⟩ := pr
      have hlen := (lexStep_sublist hstep).length_le
      have hc1 : rest.length < f1 := by
        simp only [List.length_cons] at h1
        omega
      have hc2 : rest.length < f2 := by
        simp only [List.length_cons] at h2
        omega
      cases o with
      | none => exact lexLoop_congr f1 f2 rest hc1 hc2
      | some t => exact congrArg (Except.map fun ts => t :: ts) (lexLoop_congr f1 f2 rest hc1 hc2)

/-- One step of `lexRun`: the loop state after one iteration. -/
theorem lexRun_cons (c : Char) (cs : List Char) :
    lexRun (c :: cs) =
      match lexStep c cs with
      | Except.error e => Except.error e
      | Except.ok (none, rest) => lexRun rest
      | Except.ok (some t, rest) => Except.map (fun ts => t :: ts) (lexRun rest) := by
  show lexLoop ((c :: cs).length + 1) (c :: cs) = _
  rw [show (c :: cs).length + 1 = (cs.length + 1) + 1 by simp]
  rw [lexLoop_succ_cons]
  cases hstep : lexStep c cs with
  | error e => rfl
  | ok pr =>
    obtain ⟨o, rest⟩ := pr
    have hlen := (lexStep_sublist hstep).length_le
    have hcongr : lexLoop (cs.length + 1) rest = lexRun rest :=
      lexLoop_congr (cs.length + 1) (rest.length + 1) rest (by omega) (by omega)
    cases o with
    | none => exact hcongr
    | some t => exact congrArg (Except.map fun ts => t :: ts) hcongr

/-! ### Claim theorems -/

/-- C2: for every `Program` whose body is `Return(Const(v))`,
`generate_assembly` returns `Ok` of an `AsmProgram` with the same
function name and exactly the instructions
`[Mov(Imm(v), Register), Ret]`, in that order. -/
theorem C2_generate_assembly_shape (name : String) (v : Int) :
    generate_assembly ⟨⟨name, Statement.Return (Exp.Const v)⟩⟩ =
      Except.ok ⟨⟨name,
        [AsmInstruction.Mov (AsmOperand.Imm v) AsmOperand.Register,
         AsmInstruction.Ret]⟩⟩ := rfl

/-- C4: `generate_assembly` returns `Ok` on every constructible
`Program`: `Statement` has only the `Return` variant and `Exp` only the
`Const` variant, so the `InvalidFunctionBody` and `UnsupportedExpression`
error paths of the Rust source can never be taken. -/
theorem C4_generate_assembly_total (p : Program) :
    ∃ a : AsmProgram, generate_assembly p = Except.ok a := by
  obtain ⟨⟨name, body⟩⟩ := p
  cases body with
  | Return e =>
    cases e with
    | Const v => exact ⟨_, rfl⟩

/-- C5: whenever the lexer's cursor is at `'i'` and the whole unconsumed
suffix starts with `int`, it emits `IntKeyword` and advances exactly
three characters — with no word-boundary check afterwards, so `intX`
lexes to `[IntKeyword, Identifier "X"]`; likewise for `'r'` and the
six-character prefix `return`. -/
theorem C5_keyword_prefix_lexing :
    (∀ rest : List Char, lexRun ('i' :: 'n' :: 't' :: rest) =
        Except.map (fun ts => Token.IntKeyword :: ts) (lexRun rest)) ∧
    (∀ rest : List Char, lexRun ('r' :: 'e' :: 't' :: 'u' :: 'r' :: 'n' :: rest) =
        Except.map (fun ts => Token.ReturnKeyword :: ts) (lexRun rest)) ∧
    lex "intX" = Except.ok [Token.IntKeyword, Token.Identifier "X"] := by
  refine ⟨fun rest => ?_, fun rest => ?_, ?_⟩
  · rw [lexRun_cons]
    rw [show lexStep 'i' ('n' :: 't' :: rest) =
        Except.ok (some Token.IntKeyword, rest) from rfl]
  · rw [lexRun_cons]
    rw [show lexStep 'r' ('e' :: 't' :: 'u' :: 'r' :: 'n' :: rest) =
        Except.ok (some Token.ReturnKeyword, rest) from rfl]
  · rfl

/-- C9: the empty input lexes to an empty token sequence, and parsing an
empty token sequence fails with an end-of-input syntax error (at the
first expected token, the `int` keyword), not a panic. -/
theorem C9_empty_input :
    lex "" = Except.ok [] ∧
    parse [] = Except.error "Expected IntKeyword, but found end of input" :=
  ⟨rfl, rfl⟩

/-- C10: a lone `'/'` as the final character, or a `/*` comment never
closed by `*/`, raises no lexical error: the incomplete comment or
dangling slash is silently discarded and the tokens accumulated before
the `'/'` are returned. -/
theorem C10_dangling_slash_unclosed_comment :
    lexRun ['/'] = Except.ok [] ∧
    (∀ rest : List Char, blockCloses rest = false →
        lexRun ('/' :: '*' :: rest) = Except.ok []) ∧
    lex "int x /" = Except.ok [Token.IntKeyword, Token.Identifier "x"] ∧
    lex "int x /* unclosed" = Except.ok [Token.IntKeyword, Token.Identifier "x"] := by
  refine ⟨rfl, fun rest h => ?_, rfl, rfl⟩
  rw [lexRun_cons]
  rw [show lexStep '/' ('*' :: rest) =
      Except.ok (none, skipBlockComment rest) from rfl]
  rw [skipBlockComment_of_not_closes rest h]
  rfl

/-- Witness for C10: instantiating the unterminated-block-comment clause
at the concrete comment body `a`. -/
theorem C10_dangling_slash_unclosed_comment_witness :
    lexRun ['/', '*', 'a'] = Except.ok [] :=
  C10_dangling_slash_unclosed_comment.2.1 ['a'] rfl

/-- C1: the spec claims `int id(void){ return N; }` parses successfully,
but the parser peeks for the `VoidKeyword` token, which the lexer never
produces (`void` always lexes as `Identifier "void"`), so the `void`
variant is always rejected; the parenthesized-empty-parameter-list
variant does succeed as described. -/
theorem C1_void_variant_rejected :
    lexAndParse "int main(void){ return 0; }" =
      Except.error "Expected 'void' or ')' after '(" ∧
    lex "int main(void){ return 0; }" =
      Except.ok [Token.IntKeyword, Token.Identifier "main", Token.OpenParenthesis,
        Token.Identifier "void", Token.CloseParenthesis, Token.OpenBrace,
        Token.ReturnKeyword, Token.IntegerLiteral "0", Token.Semicolon,
        Token.CloseBrace] ∧
    lexAndParse "int main(){ return 0; }" =
      Except.ok ⟨⟨"main", Statement.Return (Exp.Const 0)⟩⟩ :=
  ⟨rfl, rfl, rfl⟩

/-- Regrouping the rendered header and move-instruction text around the
interpolated immediate. -/
theorem movl_chunk_append (x : String) :
    (":\n" : String) ++ ("    movl " ++ ("$" ++ x)) = ":\n    movl $" ++ x := by
  rw [← String.append_assoc, ← String.append_assoc]
  rfl

/-- C3: rendering `[Mov(Imm v, Register), Ret]` produces the header
lines, the `movl` line immediately followed by the `ret` line, and the
single trailing GNU-stack note directive with no trailing newline. -/
theorem C3_render_text (name : String) (v : Int) :
    assembly_to_string ⟨⟨name,
        [AsmInstruction.Mov (AsmOperand.Imm v) AsmOperand.Register,
         AsmInstruction.Ret]⟩⟩ =
      " .globl " ++ name ++ "\n" ++ name ++ ":\n" ++
      "    movl $" ++ toString v ++ ", %eax\n" ++
      "    ret\n" ++
      "    .section .note.GNU-stack,\"\",@progbits" := by
  simp only [assembly_to_string, operand_to_str, List.foldl]
  simp [String.append_assoc]
  rw [movl_chunk_append]

/-- On ASCII characters the modelled Rust `is_alphanumeric` agrees with
the ASCII alphanumeric class. -/
theorem rustIsAlphanumeric_ascii {c : Char} (h : c.toNat < 128) :
    rustIsAlphanumeric c = c.isAlphanum := by
  have h1 : (c.toNat == 0xAA) = false := by simp; omega
  have h2 : (c.toNat == 0xB5) = false := by simp; omega
  have h3 : (c.toNat == 0xBA) = false := by simp; omega
  have h4 : (c.toNat == 0xB2) = false := by simp; omega
  have h5 : (c.toNat == 0xB3) = false := by simp; omega
  have h6 : (c.toNat == 0xB9) = false := by simp; omega
  have h7 : (0xBC ≤ c.toNat && c.toNat ≤ 0xBE) = false := by
    simp only [Bool.and_eq_false_iff, decide_eq_false_iff_not, not_le]
    omega
  have h8 : (0xC0 ≤ c.toNat && c.toNat ≤ 0xD6) = false := by
    simp only [Bool.and_eq_false_iff, decide_eq_false_iff_not, not_le]
    omega
  have h9 : (0xD8 ≤ c.toNat && c.toNat ≤ 0xF6) = false := by
    simp only [Bool.and_eq_false_iff, decide_eq_false_iff_not, not_le]
    omega
  have h10 : (0xF8 ≤ c.toNat && c.toNat ≤ 0xFF) = false := by
    simp only [Bool.and_eq_false_iff, decide_eq_false_iff_not, not_le]
    omega
  simp [rustIsAlphanumeric, h1, h2, h3, h4, h5, h6, h7, h8, h9, h10]

/-- An identifier run that starts at an ASCII non-digit identifier
character matches the specification's identifier pattern. -/
theorem ident_run_matches {c : Char} {cs : List Char}
    (hid : isIdentChar c = true) (hdig : rustIsDigit10 c = false)
    (hascii : ∀ x ∈ c :: cs, x.toNat < 128) :
    matchesIdentRegex (String.mk (List.takeWhile isIdentChar (c :: cs))) = true := by
  rw [takeWhile_cons_pos hid]
  show (isAsciiIdentStart c && (List.takeWhile isIdentChar cs).all isAsciiIdentChar) = true
  have hc : c.toNat < 128 := hascii c (List.mem_cons_self c cs)
  have hstart : isAsciiIdentStart c = true := by
    have hid2 : (c.isAlphanum || decide (c = '_')) = true := by
      unfold isIdentChar at hid
      rw [rustIsAlphanumeric_ascii hc] at hid
      exact hid
    unfold Char.isAlphanum at hid2
    unfold rustIsDigit10 at hdig
    rw [hdig] at hid2
    unfold isAsciiIdentStart
    simpa using hid2
  have hall : (List.takeWhile isIdentChar cs).all isAsciiIdentChar = true := by
    rw [List.all_eq_true]
    intro x hx
    have hxid : isIdentChar x = true := List.mem_takeWhile_imp hx
    have hxcs : x ∈ cs := (List.takeWhile_sublist isIdentChar).subset hx
    have hxa : x.toNat < 128 := hascii x (List.mem_cons_of_mem c hxcs)
    unfold isIdentChar at hxid
    rw [rustIsAlphanumeric_ascii hxa] at hxid
    exact hxid
  rw [hstart, hall]
  rfl

/-- `lexSlash` never produces a token. -/
theorem lexSlash_none {cs rest : List Char} {o : Option Token}
    (h : lexSlash cs = Except.ok (o, rest)) : o = none := by
  cases cs with
  | nil =>
    rw [lexSlash] at h
    injection h with h
    injection h with h1 h2
    exact h1.symm
  | cons d ds =>
    rw [lexSlash] at h
    by_cases hd : d = '/'
    · rw [if_pos hd] at h
      injection h with h
      injection h with h1 h2
      exact h1.symm
    rw [if_neg hd] at h
    by_cases hd2 : d = '*'
    · rw [if_pos hd2] at h
      injection h with h
      injection h with h1 h2
      exact h1.symm
    rw [if_neg hd2] at h
    exact Except.noConfusion h

/-- Any `Identifier` token a single lexer step produces from ASCII input
matches the specification's identifier pattern. -/
theorem lexStep_token_ident {c : Char} {cs rest : List Char} {nm : String}
    (h : lexStep c cs = Except.ok (some (Token.Identifier nm), rest))
    (hascii : ∀ x ∈ c :: cs, x.toNat < 128) :
    matchesIdentRegex nm = true := by
  unfold lexStep at h
  by_cases h1 : c = '\x7b'
  · rw [if_pos h1] at h
    injection h with h
    injection h with ha hb
    injection ha with ha
    exact Token.noConfusion ha
  rw [if_neg h1] at h
  by_cases h2 : c = '\x7d'
  · rw [if_pos h2] at h
    injection h with h
    injection h with ha hb
    injection ha with ha
    exact Token.noConfusion ha
  rw [if_neg h2] at h
  by_cases h3 : c = '('
  · rw [if_pos h3] at h
    injection h with h
    injection h with ha hb
    injection ha with ha
    exact Token.noConfusion ha
  rw [if_neg h3] at h
  by_cases h4 : c = ')'
  · rw [if_pos h4] at h
    injection h with h
    injection h with ha hb
    injection ha with ha
    exact Token.noConfusion ha
  rw [if_neg h4] at h
  by_cases h5 : c = ';'
  · rw [if_pos h5] at h
    injection h with h
    injection h with ha hb
    injection ha with ha
    exact Token.noConfusion ha
  rw [if_neg h5] at h
  by_cases h6 : c = '-'
  · rw [if_pos h6] at h
    injection h with h
    injection h with ha hb
    injection ha with ha
    exact Token.noConfusion ha
  rw [if_neg h6] at h
  by_cases h7 : c = '~'
  · rw [if_pos h7] at h
    injection h with h
    injection h with ha hb
    injection ha with ha
    exact Token.noConfusion ha
  rw [if_neg h7] at h
  by_cases h8 : c = '!'
  · rw [if_pos h8] at h
    injection h with h
    injection h with ha hb
    injection ha with ha
    exact Token.noConfusion ha
  rw [if_neg h8] at h
  by_cases h9 : c = '/'
  · rw [if_pos h9] at h
    exact Option.noConfusion (lexSlash_none h)
  rw [if_neg h9] at h
  by_cases h10 : c = 'i'
  · rw [if_pos h10] at h
    by_cases hp : startsWithChars ['i', 'n', 't'] (c :: cs) = true
    · rw [if_pos hp] at h
      injection h with h
      injection h with ha hb
      injection ha with ha
      exact Token.noConfusion ha
    · rw [if_neg hp] at h
      injection h with h
      injection h with ha hb
      injection ha with ha
      injection ha with ha
      rw [← ha]
      subst h10
      exact ident_run_matches (by decide) (by decide) hascii
  rw [if_neg h10] at h
  by_cases h11 : c = 'r'
  · rw [if_pos h11] at h
    by_cases hp : startsWithChars ['r', 'e', 't', 'u', 'r', 'n'] (c :: cs) = true
    · rw [if_pos hp] at h
      injection h with h
      injection h with ha hb
      injection ha with ha
      exact Token.noConfusion ha
    · rw [if_neg hp] at h
      injection h with h
      injection h with ha hb
      injection ha with ha
      injection ha with ha
      rw [← ha]
      subst h11
      exact ident_run_matches (by decide) (by decide) hascii
  rw [if_neg h11] at h
  by_cases h12 : rustIsDigit10 c = true
  · rw [if_pos h12] at h
    injection h with h
    injection h with ha hb
    injection ha with ha
    exact Token.noConfusion ha
  rw [if_neg h12] at h
  by_cases h13 : (rustIsAlphanumeric c || c = '_') = true
  · rw [if_pos h13] at h
    injection h with h
    injection h with ha hb
    injection ha with ha
    injection ha with ha
    rw [← ha]
    rw [Bool.not_eq_true] at h12
    exact ident_run_matches h13 h12 hascii
  rw [if_neg h13] at h
  by_cases h14 : (c = ' ' || c = '\n' || c = '\r') = true
  · rw [if_pos h14] at h
    injection h with h
    injection h with ha hb
    exact Option.noConfusion ha
  rw [if_neg h14] at h
  exact Except.noConfusion h

/-- Loop invariant: on ASCII input every `Identifier` token the lexer
emits matches the specification's identifier pattern. -/
theorem lexLoop_ident_inv : ∀ (fuel : Nat) (cs : List Char) (ts : List Token) (nm : String),
    (∀ x ∈ cs, x.toNat < 128) → lexLoop fuel cs = Except.ok ts →
    Token.Identifier nm ∈ ts → matchesIdentRegex nm = true
  | 0, cs, ts, nm, _, hrun, _ => Except.noConfusion hrun
  | _ + 1, [], ts, nm, _, hrun, hmem => by
    injection hrun with hrun
    rw [← hrun] at hmem
    exact absurd hmem (List.not_mem_nil _)
  | fuel + 1, c :: cs, ts, nm, hascii, hrun, hmem => by
    rw [lexLoop_succ_cons] at hrun
    cases hstep : lexStep c cs with
    | error e => rw [hstep] at hrun; exact Except.noConfusion hrun
    | ok pr =>
      obtain ⟨o, rest⟩ := pr
      rw [hstep] at hrun
      have hrest_ascii : ∀ x ∈ rest, x.toNat < 128 := fun x hx =>
        hascii x (List.mem_cons_of_mem c ((lexStep_sublist hstep).subset hx))
      cases o with
      | none => exact lexLoop_ident_inv fuel rest ts nm hrest_ascii hrun hmem
      | some t =>
        replace hrun : Except.map (fun ts => t :: ts) (lexLoop fuel rest) = Except.ok ts := hrun
        cases hrec : lexLoop fuel rest with
        | error e =>
          rw [hrec] at hrun
          exact Except.noConfusion hrun
        | ok ts2 =>
          rw [hrec] at hrun
          injection hrun with hrun
          rw [← hrun] at hmem
          rcases List.mem_cons.mp hmem with hEq | hmem2
          · rw [← hEq] at hstep
            exact lexStep_token_ident hstep hascii
          · exact lexLoop_ident_inv fuel rest ts2 nm hrest_ascii hrec hmem2

/-- C8 counterexample: Rust's `char::is_alphanumeric` is Unicode-aware,
so the superscript-two character (U+00B2, a Unicode Number) lexes into
an `Identifier` token whose text does not match `[A-Za-z_][A-Za-z0-9_]*`;
the claim is false for non-ASCII input. -/
theorem C8_unicode_identifier_counterexample :
    lex "²" = Except.ok [Token.Identifier "²"] ∧
    matchesIdentRegex "²" = false :=
  ⟨rfl, rfl⟩

/-- C8 (amended): for every input consisting of ASCII characters, every
`Identifier` token the lexer produces holds a non-empty string matching
`[A-Za-z_][A-Za-z0-9_]*`. -/
theorem C8_ascii_identifier_tokens (s : String) (ts : List Token) (nm : String)
    (hascii : ∀ c ∈ s.data, c.toNat < 128) (hlex : lex s = Except.ok ts)
    (hmem : Token.Identifier nm ∈ ts) : matchesIdentRegex nm = true :=
  lexLoop_ident_inv (s.data.length + 1) s.data ts nm hascii hlex hmem

/-- Witness for C8 (amended) at the concrete ASCII input `ab`. -/
theorem C8_ascii_identifier_tokens_witness : matchesIdentRegex "ab" = true :=
  C8_ascii_identifier_tokens "ab" [Token.Identifier "ab"] "ab" (by decide) rfl
    (List.mem_cons_self _ _)

/-! ### Parser lemmas -/

theorem except_bind_ok {α β : Type} (a : α) (f : α → Except String β) :
    (Except.ok a >>= f) = f a := rfl

theorem except_bind_error {α β : Type} (e : String) (f : α → Except String β) :
    ((Except.error e : Except String α) >>= f) = Except.error e := rfl

theorem except_bind_ok_inv {α β : Type} {x : Except String α} {f : α → Except String β} {b : β}
    (h : (x >>= f) = Except.ok b) : ∃ a, x = Except.ok a ∧ f a = Except.ok b := by
  cases x with
  | error e => exact Except.noConfusion h
  | ok a => exact ⟨a, rfl, h⟩

theorem expect_token_ok {toks r : List Token} {e : Token}
    (h : expect_token toks e = Except.ok r) : toks = e :: r := by
  cases toks with
  | nil => exact Except.noConfusion h
  | cons t rest =>
    simp only [expect_token] at h
    by_cases ht : t = e
    · rw [if_pos ht] at h
      injection h with h
      rw [ht, h]
    · rw [if_neg ht] at h
      exact Except.noConfusion h

theorem expect_identifier_ok {toks : List Token} {nm : String} {r : List Token}
    (h : expect_identifier toks = Except.ok (nm, r)) : toks = Token.Identifier nm :: r := by
  cases toks with
  | nil => exact Except.noConfusion h
  | cons t rest =>
    cases t <;> try exact Except.noConfusion h
    case Identifier sVal =>
      replace h : (Except.ok (sVal, rest) : Except String (String × List Token)) =
          Except.ok (nm, r) := h
      injection h with h
      injection h with h1 h2
      rw [h1, h2]

theorem expect_integer_literal_ok {toks : List Token} {v : Int} {r : List Token}
    (h : expect_integer_literal toks = Except.ok (v, r)) :
    ∃ s, toks = Token.IntegerLiteral s :: r ∧ parseI32 s = some v := by
  cases toks with
  | nil => exact Except.noConfusion h
  | cons t rest =>
    cases t <;> try exact Except.noConfusion h
    case IntegerLiteral sVal =>
      replace h : (match parseI32 sVal with
        | some w => Except.ok (w, rest)
        | none => (Except.error "Invalid integer literal" : Except String (Int × List Token))) =
          Except.ok (v, r) := h
      cases hp : parseI32 sVal with
      | none =>
        rw [hp] at h
        exact Except.noConfusion h
      | some w =>
        rw [hp] at h
        replace h : (Except.ok (w, rest) : Except String (Int × List Token)) =
            Except.ok (v, r) := h
        injection h with h
        injection h with h1 h2
        refine ⟨sVal, by rw [h2], by rw [hp, h1]⟩

/-- Forward computation of `parse` on the canonical nine-token function
declaration followed by arbitrary extra tokens. -/
theorem parse_shape_append (nm s : String) (v : Int) (extra : List Token)
    (hs : parseI32 s = some v) :
    parse (Token.IntKeyword :: Token.Identifier nm :: Token.OpenParenthesis ::
           Token.CloseParenthesis :: Token.OpenBrace :: Token.ReturnKeyword ::
           Token.IntegerLiteral s :: Token.Semicolon :: Token.CloseBrace :: extra) =
      (if extra.isEmpty then Except.ok ⟨⟨nm, Statement.Return (Exp.Const v)⟩⟩
       else Except.error "Unexpected tokens at after function delcaration") := by
  simp [parse, expect_token, expect_identifier, expect_integer_literal, hs,
    except_bind_ok, except_bind_error]

/-- Forward computation of `parse` on the ten-token variant with a
`VoidKeyword` parameter, followed by arbitrary extra tokens. -/
theorem parse_shape_void_append (nm s : String) (v : Int) (extra : List Token)
    (hs : parseI32 s = some v) :
    parse (Token.IntKeyword :: Token.Identifier nm :: Token.OpenParenthesis ::
           Token.VoidKeyword :: Token.CloseParenthesis :: Token.OpenBrace ::
           Token.ReturnKeyword :: Token.IntegerLiteral s :: Token.Semicolon ::
           Token.CloseBrace :: extra) =
      (if extra.isEmpty then Except.ok ⟨⟨nm, Statement.Return (Exp.Const v)⟩⟩
       else Except.error "Unexpected tokens at after function delcaration") := by
  simp [parse, expect_token, expect_identifier, expect_integer_literal, hs,
    except_bind_ok, except_bind_error]

/-- Inversion: the only token sequences `parse` accepts are the canonical
shape and its `VoidKeyword` variant. -/
theorem parse_ok_inv {toks : List Token} {p : Program} (h : parse toks = Except.ok p) :
    ∃ nm s v, parseI32 s = some v ∧
      p = ⟨⟨nm, Statement.Return (Exp.Const v)⟩⟩ ∧
      (toks = [Token.IntKeyword, Token.Identifier nm, Token.OpenParenthesis,
               Token.CloseParenthesis, Token.OpenBrace, Token.ReturnKeyword,
               Token.IntegerLiteral s, Token.Semicolon, Token.CloseBrace] ∨
       toks = [Token.IntKeyword, Token.Identifier nm, Token.OpenParenthesis,
               Token.VoidKeyword, Token.CloseParenthesis, Token.OpenBrace,
               Token.ReturnKeyword, Token.IntegerLiteral s, Token.Semicolon,
               Token.CloseBrace]) := by
  unfold parse at h
  obtain ⟨r1, e1, h⟩ := except_bind_ok_inv h
  obtain ⟨pr2, e2, h⟩ := except_bind_ok_inv h
  obtain ⟨nm, r2⟩ := pr2
  obtain ⟨r3, e3, h⟩ := except_bind_ok_inv h
  cases r3 with
  | nil => exact Except.noConfusion h
  | cons t3 w3 =>
    cases t3 <;> try exact Except.noConfusion h
    case VoidKeyword =>
      obtain ⟨r4, e4, h⟩ := except_bind_ok_inv h
      obtain ⟨r5, e5, h⟩ := except_bind_ok_inv h
      obtain ⟨r6, e6, h⟩ := except_bind_ok_inv h
      obtain ⟨r7, e7, h⟩ := except_bind_ok_inv h
      obtain ⟨pr8, e8, h⟩ := except_bind_ok_inv h
      obtain ⟨v, r8⟩ := pr8
      obtain ⟨r9, e9, h⟩ := except_bind_ok_inv h
      obtain ⟨r10, e10, h⟩ := except_bind_ok_inv h
      obtain ⟨sVal, h8, hs⟩ := expect_integer_literal_ok e8
      replace e4 : (Except.ok w3 : Except String (List Token)) = Except.ok r4 := e4
      injection e4 with e4
      subst e4
      cases r10 with
      | cons t10 w10 =>
        replace h : (Except.error "Unexpected tokens at after function delcaration" :
            Except String Program) = Except.ok p := h
        exact Except.noConfusion h
      | nil =>
        replace h : (Except.ok ⟨⟨nm, Statement.Return (Exp.Const v)⟩⟩ :
            Except String Program) = Except.ok p := h
        injection h with h
        refine ⟨nm, sVal, v, hs, h.symm, Or.inr ?_⟩
        have s1 := expect_token_ok e1
        have s2 := expect_identifier_ok e2
        have s3 := expect_token_ok e3
        have s5 := expect_token_ok e5
        have s6 := expect_token_ok e6
        have s7 := expect_token_ok e7
        have s9 := expect_token_ok e9
        have s10 := expect_token_ok e10
        subst s1 s2 s3 s5 s6 s7 h8 s9 s10
        rfl
    case CloseParenthesis =>
      obtain ⟨r4, e4, h⟩ := except_bind_ok_inv h
      obtain ⟨r5, e5, h⟩ := except_bind_ok_inv h
      obtain ⟨r6, e6, h⟩ := except_bind_ok_inv h
      obtain ⟨r7, e7, h⟩ := except_bind_ok_inv h
      obtain ⟨pr8, e8, h⟩ := except_bind_ok_inv h
      obtain ⟨v, r8⟩ := pr8
      obtain ⟨r9, e9, h⟩ := except_bind_ok_inv h
      obtain ⟨r10, e10, h⟩ := except_bind_ok_inv h
      obtain ⟨sVal, h8, hs⟩ := expect_integer_literal_ok e8
      replace e4 : (Except.ok (Token.CloseParenthesis :: w3) : Except String (List Token)) =
          Except.ok r4 := e4
      injection e4 with e4
      subst e4
      cases r10 with
      | cons t10 w10 =>
        replace h : (Except.error "Unexpected tokens at after function delcaration" :
            Except String Program) = Except.ok p := h
        exact Except.noConfusion h
      | nil =>
        replace h : (Except.ok ⟨⟨nm, Statement.Return (Exp.Const v)⟩⟩ :
            Except String Program) = Except.ok p := h
        injection h with h
        refine ⟨nm, sVal, v, hs, h.symm, Or.inl ?_⟩
        have s1 := expect_token_ok e1
        have s2 := expect_identifier_ok e2
        have s3 := expect_token_ok e3
        have s5 := expect_token_ok e5
        have s6 := expect_token_ok e6
        have s7 := expect_token_ok e7
        have s9 := expect_token_ok e9
        have s10 := expect_token_ok e10
        injection s5 with s5a s5b
        subst s1 s2 s3 s5b s6 s7 h8 s9 s10
        rfl

/-- `parse::<i32>` on a non-empty all-digit string succeeds with the
string's decimal value exactly when that value is at most `i32::MAX`. -/
theorem parseI32_digits {s : String} (h1 : s.data ≠ []) (h2 : s.data.all Char.isDigit = true) :
    parseI32 s = if digitsToNat s.data ≤ 2147483647 then
        some ((digitsToNat s.data : Nat) : Int) else none := by
  obtain ⟨c, cs, hd⟩ : ∃ c cs, s.data = c :: cs := by
    cases hcs : s.data with
    | nil => exact absurd hcs h1
    | cons c cs => exact ⟨c, cs, rfl⟩
  have hc : c.isDigit = true :=
    List.all_eq_true.mp (hd ▸ h2) c (List.mem_cons_self c cs)
  unfold parseI32
  rw [hd] at h2 ⊢
  split
  · rename_i rest heq
    injection heq with heqc heqr
    rw [heqc] at hc
    exact absurd hc (by decide)
  · rename_i rest heq
    injection heq with heqc heqr
    rw [heqc] at hc
    exact absurd hc (by decide)
  · show ((if c :: cs = [] then none
        else if (c :: cs).all Char.isDigit = true then
          some (List.foldl (fun n c => n * 10 + (c.toNat - 48)) 0 (c :: cs))
        else none).bind fun n => if n ≤ 2147483647 then some (Int.ofNat n) else none) =
      if digitsToNat (c :: cs) ≤ 2147483647 then some ((digitsToNat (c :: cs) : Nat) : Int)
      else none
    rw [if_neg (by simp : ¬(c :: cs = []))]
    rw [if_pos h2]
    rfl

/-- C7: on an `IntegerLiteral` token holding a non-empty decimal digit
string, `expect_integer_literal` returns the string's decimal value when
it is at most `2147483647`, returns the error `Invalid integer literal`
exactly when the value does not fit in a signed 32-bit integer, and the
constant stored in the AST by `parse` is that value unchanged. -/
theorem C7_integer_literal (s : String) (rest : List Token)
    (h1 : s.data ≠ []) (h2 : s.data.all Char.isDigit = true) :
    (digitsToNat s.data ≤ 2147483647 →
      expect_integer_literal (Token.IntegerLiteral s :: rest) =
        Except.ok (((digitsToNat s.data : Nat) : Int), rest)) ∧
    (2147483647 < digitsToNat s.data →
      expect_integer_literal (Token.IntegerLiteral s :: rest) =
        Except.error "Invalid integer literal") ∧
    (digitsToNat s.data ≤ 2147483647 →
      parse [Token.IntKeyword, Token.Identifier "f", Token.OpenParenthesis,
             Token.CloseParenthesis, Token.OpenBrace, Token.ReturnKeyword,
             Token.IntegerLiteral s, Token.Semicolon, Token.CloseBrace] =
        Except.ok ⟨⟨"f", Statement.Return (Exp.Const ((digitsToNat s.data : Nat) : Int))⟩⟩) := by
  have hp := parseI32_digits h1 h2
  refine ⟨fun hle => ?_, fun hgt => ?_, fun hle => ?_⟩
  · show (match parseI32 s with
      | some w => Except.ok (w, rest)
      | none => (Except.error "Invalid integer literal" : Except String (Int × List Token))) = _
    rw [hp, if_pos hle]
  · show (match parseI32 s with
      | some w => Except.ok (w, rest)
      | none => (Except.error "Invalid integer literal" : Except String (Int × List Token))) = _
    rw [hp, if_neg (by omega)]
  · have hps := parse_shape_append "f" s ((digitsToNat s.data : Nat) : Int) []
      (by rw [hp, if_pos hle])
    simpa using hps

/-- Witness for C7 at the concrete literal `42`. -/
theorem C7_integer_literal_witness :
    expect_integer_literal [Token.IntegerLiteral "42"] = Except.ok ((42 : Int), []) := by
  have h := (C7_integer_literal "42" [] (by decide) (by decide)).1 (by decide)
  exact h

/-- C6 counterexample: the error message the parser actually produces for
trailing tokens is the source's misspelt
`Unexpected tokens at after function delcaration`, not the message the
claim states. -/
theorem C6_trailing_tokens_counterexample :
    parse [Token.IntKeyword, Token.Identifier "main", Token.OpenParenthesis,
           Token.CloseParenthesis, Token.OpenBrace, Token.ReturnKeyword,
           Token.IntegerLiteral "42", Token.Semicolon, Token.CloseBrace,
           Token.Semicolon] =
      Except.error "Unexpected tokens at after function delcaration" ∧
    "Unexpected tokens at after function delcaration" ≠
      "Unexpected tokens after function declaration" :=
  ⟨rfl, by decide⟩

/-- C6 (amended): appending one or more tokens of any kind to any token
sequence that parses successfully makes `parse` fail with the (misspelt)
message `Unexpected tokens at after function delcaration`. -/
theorem C6_trailing_tokens_error (toks : List Token) (p : Program) (t : Token) (ts : List Token)
    (h : parse toks = Except.ok p) :
    parse (toks ++ t :: ts) =
      Except.error "Unexpected tokens at after function delcaration" := by
  obtain ⟨nm, sVal, v, hs, hp, hshape | hshape⟩ := parse_ok_inv h
  · subst hshape
    exact (parse_shape_append nm sVal v (t :: ts) hs).trans rfl
  · subst hshape
    exact (parse_shape_void_append nm sVal v (t :: ts) hs).trans rfl

/-- Witness for C6 (amended): a stray trailing semicolon after a valid
function. -/
theorem C6_trailing_tokens_error_witness :
    parse ([Token.IntKeyword, Token.Identifier "main", Token.OpenParenthesis,
            Token.CloseParenthesis, Token.OpenBrace, Token.ReturnKeyword,
            Token.IntegerLiteral "42", Token.Semicolon, Token.CloseBrace] ++
           Token.Semicolon :: []) =
      Except.error "Unexpected tokens at after function delcaration" :=
  C6_trailing_tokens_error
    [Token.IntKeyword, Token.Identifier "main", Token.OpenParenthesis,
     Token.CloseParenthesis, Token.OpenBrace, Token.ReturnKeyword,
     Token.IntegerLiteral "42", Token.Semicolon, Token.CloseBrace]
    ⟨⟨"main", Statement.Return (Exp.Const 42)⟩⟩ Token.Semicolon [] rfl

end Scc
